

import Mathlib

/-!
Verification development for the ZenithPay payment-retry engine core.

The development shallowly embeds the Go source of the repository:
the decline catalog and retry-plan builders of
internal/domain/decline.go, the strategy-override loader of the
domain config file, the thread-safe transaction store with its
pending-ID secondary index, and the retry engine of
internal/retry/engine.go.

Modelling conventions:
* Go time.Time instants and time.Duration values are Int nanoseconds
  in UTC. Adding a calendar day in UTC is adding 86400e9 nanoseconds.
* Go float64 values (backoff multiplier, per-attempt rates) are exact
  rationals; the conversion time.Duration(float64(...)) is truncation
  of the exact rational toward zero.
* Go maps are functions into Option; map iteration order is made
  explicit by quantifying over association lists.
* A returned none whose comment mentions a runtime fault models a Go
  runtime fault (index out of range or nil dereference).
* The store runs every mutation under one writer lock, so the
  embedding is sequential; a mutator callback is a pure function
  returning Except (an error result models the callback assigning an
  error and its mutations being discarded).
* Deep copies of immutable Lean values are the identity.
-/

namespace ZenithPay

/-! ## Domain data model (internal/domain/models.go) -/

inductive DeclineCategory where
  | hard
  | soft
deriving DecidableEq, Repr

inductive TransactionStatus where
  | scheduled
  | retrying
  | recovered
  | failedFinal
  | rejected
deriving DecidableEq, Repr

/-- Webhook event type constants from the domain package. -/
def eventRetryScheduled : String := "retry.scheduled"

def eventRetrySucceeded : String := "retry.succeeded"

def eventRetryFailed : String := "retry.failed"

def eventRetryExhausted : String := "retry.exhausted"

/-- RetryStrategy from internal/domain/decline.go. Durations are Int
nanoseconds, float64 rates and the multiplier are exact rationals, and
the BackoffType string is kept as a string as in the source. -/
structure RetryStrategy where
  declineCode : String
  category : DeclineCategory
  maxAttempts : Nat
  delays : List Int
  perAttemptRates : List ℚ
  useAltProcessor : Bool
  description : String
  backoffType : String
  baseDelay : Int
  backoffMultiplier : ℚ
  businessHoursStart : Int
  businessHoursEnd : Int
deriving DecidableEq, Repr

/-! Duration constants, in nanoseconds. -/

def nsPerMinute : Int := 60000000000

def nsPerHour : Int := 3600000000000

def nsPerDay : Int := 86400000000000

/-- hardDeclineCodes: decline codes that must never be retried, with
their reasons. A Go map used only through lookups, embedded as an
association list. -/
def hardDeclineCodes : List (String × String) :=
  [("stolen_card", "Card has been reported as stolen"),
   ("fraud_suspected", "Issuer suspects fraudulent activity"),
   ("invalid_card", "Card number does not exist"),
   ("expired_card", "Card is past its expiration date")]

/-- retryStrategies: the default strategy table of decline.go, as a map
from decline code to strategy. Fields not set in the Go literal carry
the Go zero value (empty string backoff type, zero base delay, zero
multiplier, zero business hours). -/
def defaultStrategies : String → Option RetryStrategy := fun code =>
  if code = "insufficient_funds" then
    some { declineCode := "insufficient_funds", category := .soft, maxAttempts := 3,
           delays := [2 * nsPerHour, 24 * nsPerHour, 48 * nsPerHour],
           perAttemptRates := [mkRat 12 100, mkRat 17 100, mkRat 22 100], useAltProcessor := false,
           description := "Customer may add funds; retry with increasing delays",
           backoffType := "", baseDelay := 0, backoffMultiplier := 0,
           businessHoursStart := 0, businessHoursEnd := 0 }
  else if code = "issuer_timeout" then
    some { declineCode := "issuer_timeout", category := .soft, maxAttempts := 3,
           delays := [0, 5 * nsPerMinute, 30 * nsPerMinute],
           perAttemptRates := [mkRat 40 100, mkRat 30 100, mkRat 25 100], useAltProcessor := true,
           description := "Network issue; retry immediately via alternative processor",
           backoffType := "", baseDelay := 0, backoffMultiplier := 0,
           businessHoursStart := 0, businessHoursEnd := 0 }
  else if code = "do_not_honor" then
    some { declineCode := "do_not_honor", category := .soft, maxAttempts := 3,
           delays := [24 * nsPerHour, 48 * nsPerHour, 72 * nsPerHour],
           perAttemptRates := [mkRat 12 100, mkRat 15 100, mkRat 10 100], useAltProcessor := false,
           description := "Generic decline with temporary risk flags; retry after cool-down",
           backoffType := "", baseDelay := 0, backoffMultiplier := 0,
           businessHoursStart := 0, businessHoursEnd := 0 }
  else if code = "processor_error" then
    some { declineCode := "processor_error", category := .soft, maxAttempts := 3,
           delays := [0, 5 * nsPerMinute, 1 * nsPerHour],
           perAttemptRates := [mkRat 35 100, mkRat 25 100, mkRat 20 100], useAltProcessor := true,
           description := "Technical failure on processor side; retry via alternative processor",
           backoffType := "", baseDelay := 0, backoffMultiplier := 0,
           businessHoursStart := 0, businessHoursEnd := 0 }
  else if code = "authentication_failed" then
    some { declineCode := "authentication_failed", category := .soft, maxAttempts := 2,
           delays := [1 * nsPerHour, 6 * nsPerHour],
           perAttemptRates := [mkRat 15 100, mkRat 12 100], useAltProcessor := false,
           description := "3DS verification incomplete; retry with fresh auth window",
           backoffType := "", baseDelay := 0, backoffMultiplier := 0,
           businessHoursStart := 0, businessHoursEnd := 0 }
  else none

/-- availableProcessors: the simulated payment processors for
multi-processor failover. -/
def availableProcessors : List String :=
  ["stripe_latam", "adyen_apac", "dlocal_br", "payu_mx", "mercadopago_co"]

/-- ClassifyDecline: hard-code table first, then the strategy table,
then fail closed. The strategy table is a parameter because the Go
global can be mutated by the config loader. -/
def classifyDecline (strategies : String → Option RetryStrategy) (code : String) :
    DeclineCategory × String :=
  match hardDeclineCodes.lookup code with
  | some reason => (.hard, reason)
  | none =>
    match strategies code with
    | some strategy => (.soft, strategy.description)
    | none => (.hard, "Unknown decline code, treating as hard decline for safety")

/-- GetAvailableProcessors: processors available for retry, excluding
the original, in the stable order of availableProcessors. -/
def getAvailableProcessors (excludeProcessor : String) : List String :=
  availableProcessors.filter (fun p => p ≠ excludeProcessor)

/-! ## Time arithmetic (UTC) -/

/-- Hour of a UTC instant given in nanoseconds, matching Go Hour().
On Int, the division and remainder operators are Euclidean, matching
the floor-based calendar arithmetic of the Go time package on UTC
instants. -/
def hourOf (t : Int) : Int := (t / nsPerHour) % 24

/-- Midnight of the UTC day containing t, matching
time.Date(t.Year, t.Month, t.Day, 0, 0, 0, 0, UTC). -/
def dayStart (t : Int) : Int := t - t % nsPerDay

/-- snapToBusinessHours from decline.go: keep a time already within
business hours, otherwise move to the start of the next
business-hours window. -/
def snapToBusinessHours (t : Int) (startHour endHour : Int) : Int :=
  let hour := hourOf t
  if startHour ≤ hour ∧ hour < endHour then t
  else
    let next := dayStart t + startHour * nsPerHour
    if endHour ≤ hour then next + nsPerDay else next

/-! ## Scheduled-time builders (internal/domain/decline.go) -/

/-- One entry of buildFixedTimes: baseTime plus delays[i], falling back
to the last delay for extra attempts. none models the index-out-of-range
runtime fault of delays[len(delays)-1] on an empty delay list. -/
def fixedCandidate (delays : List Int) (baseTime : Int) (i : Nat) : Option Int :=
  if h : i < delays.length then some (baseTime + delays.get ⟨i, h⟩)
  else delays.getLast?.map (fun d => baseTime + d)

/-- buildFixedTimes: static delays as absolute offsets from baseTime.
none models the runtime fault on an empty delay list. -/
def buildFixedTimes (strategy : RetryStrategy) (baseTime : Int) : Option (List Int) :=
  (List.range strategy.maxAttempts).mapM (fixedCandidate strategy.delays baseTime)

/-- Truncation of an exact rational toward zero, modelling the Go
conversion of a float64 to an int64 time.Duration. -/
def truncQ (q : ℚ) : Int := if q < 0 then -Int.floor (-q) else Int.floor q

/-- Effective multiplier of buildExponentialTimes: 2.0 when the
configured multiplier is not positive. -/
def effectiveMultiplier (strategy : RetryStrategy) : ℚ :=
  if strategy.backoffMultiplier ≤ 0 then 2 else strategy.backoffMultiplier

/-- Effective base delay of buildExponentialTimes: five minutes when the
configured base delay is not positive. -/
def effectiveBaseDelay (strategy : RetryStrategy) : Int :=
  if strategy.baseDelay ≤ 0 then 5 * nsPerMinute else strategy.baseDelay

/-- Cumulative delay after attempt i of the exponential loop: the
running sum of the per-attempt truncated delays
time.Duration(float64(base) * pow(multiplier, k)) for k = 0..i. -/
def cumDelay (base mult : ℚ) : Nat → Int
  | 0 => truncQ (base * mult ^ 0)
  | k + 1 => cumDelay base mult k + truncQ (base * mult ^ (k + 1))

/-- buildExponentialTimes: times[i] is baseTime plus the cumulative
truncated delay through attempt i. -/
def buildExponentialTimes (strategy : RetryStrategy) (baseTime : Int) : List Int :=
  let mult := effectiveMultiplier strategy
  let base := effectiveBaseDelay strategy
  (List.range strategy.maxAttempts).map (fun i => baseTime + cumDelay (base : ℚ) mult i)

/-- Business-hours window with the 9 to 17 default substituted when
both configured bounds are zero. -/
def businessWindow (strategy : RetryStrategy) : Int × Int :=
  if strategy.businessHoursStart = 0 ∧ strategy.businessHoursEnd = 0 then (9, 17)
  else (strategy.businessHoursStart, strategy.businessHoursEnd)

/-- buildBusinessHoursTimes: each Fixed-style candidate snapped to the
business-hours window. none models the runtime fault on an empty delay
list. -/
def buildBusinessHoursTimes (strategy : RetryStrategy) (baseTime : Int) : Option (List Int) :=
  let w := businessWindow strategy
  (List.range strategy.maxAttempts).mapM
    (fun i => (fixedCandidate strategy.delays baseTime i).map
      (fun c => snapToBusinessHours c w.1 w.2))

/-- buildScheduledTimes: dispatch on the backoff type, defaulting to
fixed delays. -/
def buildScheduledTimes (strategy : RetryStrategy) (baseTime : Int) : Option (List Int) :=
  if strategy.backoffType = "exponential" then some (buildExponentialTimes strategy baseTime)
  else if strategy.backoffType = "business_hours" then buildBusinessHoursTimes strategy baseTime
  else buildFixedTimes strategy baseTime

/-- RetryPlan from internal/domain/models.go. -/
structure RetryPlan where
  maxAttempts : Nat
  strategy : String
  declineCode : String
  scheduledTimes : List Int
  processors : List String
deriving DecidableEq, Repr

/-- BuildRetryPlan from decline.go. The outer none models a runtime
fault while building scheduled times; some none is the nil plan
returned for codes without a strategy. -/
def buildRetryPlan (strategies : String → Option RetryStrategy)
    (declineCode originalProcessor : String) (baseTime : Int) :
    Option (Option RetryPlan) :=
  match strategies declineCode with
  | none => some none
  | some strategy =>
    match buildScheduledTimes strategy baseTime with
    | none => none
    | some scheduledTimes =>
      let altProcessors := getAvailableProcessors originalProcessor
      let processors := (List.range strategy.maxAttempts).map (fun i =>
        if strategy.useAltProcessor ∧ 0 < i ∧ 0 < altProcessors.length then
          altProcessors.getD ((i - 1) % altProcessors.length) ""
        else originalProcessor)
      some (some { maxAttempts := strategy.maxAttempts, strategy := strategy.description,
                   declineCode := declineCode, scheduledTimes := scheduledTimes,
                   processors := processors })

/-! ## Transactions, requests and events (internal/domain/models.go) -/

/-- RetryAttempt: the result of a single retry execution. -/
structure RetryAttempt where
  attemptNumber : Nat
  processor : String
  scheduledAt : Int
  executedAt : Int
  success : Bool
  responseCode : String
  responseMsg : String
deriving DecidableEq, Repr

/-- Transaction: the aggregate root. -/
structure Transaction where
  id : String
  amount : ℚ
  currency : String
  customerID : String
  merchantID : String
  originalProcessor : String
  declineCode : String
  declineCategory : DeclineCategory
  status : TransactionStatus
  retryPlan : Option RetryPlan
  retryAttempts : List RetryAttempt
  nextRetryAt : Option Int
  createdAt : Int
  updatedAt : Int
  webhookURL : String
deriving DecidableEq, Repr

/-- SubmitRequest: the API request body. -/
structure SubmitRequest where
  transactionID : String
  amount : ℚ
  currency : String
  customerID : String
  merchantID : String
  originalProcessor : String
  declineCode : String
  timestamp : String
  webhookURL : String
deriving DecidableEq, Repr

/-- SubmitResponse: the API response after submitting. -/
structure SubmitResponse where
  transactionID : String
  declineCategory : DeclineCategory
  status : TransactionStatus
  retryEligible : Bool
  retryPlan : Option RetryPlan
  message : String
deriving DecidableEq, Repr

/-- WebhookEvent: a notification recorded by the notifier. -/
structure WebhookEvent where
  eventType : String
  transactionID : String
  status : TransactionStatus
  attemptNumber : Nat
  timestamp : Int
deriving DecidableEq, Repr

/-- SimResult: the outcome of a simulated processor call. -/
structure SimResult where
  success : Bool
  responseCode : String
  responseMessage : String
deriving DecidableEq, Repr

/-! ## Transaction store (internal/store/memory.go, indexed version) -/

/-- The store: the record map and the pending-ID secondary index. Both
Go maps are embedded as functions. All operations run under one writer
lock, so the embedding is sequential. -/
structure Store where
  transactions : String → Option Transaction
  pendingIDs : String → Bool

/-- New: an empty store. -/
def Store.new : Store :=
  { transactions := fun _ => none, pendingIDs := fun _ => false }

/-- isPendingStatus: a status in a retryable state. -/
def isPendingStatus (status : TransactionStatus) : Bool :=
  decide (status = .scheduled) || decide (status = .retrying)

/-- updatePendingIndex: maintain the secondary index after a mutation. -/
def updatePendingIndex (s : Store) (id : String) (status : TransactionStatus) : Store :=
  if isPendingStatus status then
    { s with pendingIDs := fun i => if i = id then true else s.pendingIDs i }
  else
    { s with pendingIDs := fun i => if i = id then false else s.pendingIDs i }

/-- copyTransaction: a deep copy, which is the identity on immutable
Lean values. -/
def copyTransaction (tx : Transaction) : Transaction := tx

/-- Save: store or update a transaction and maintain the index. -/
def Store.save (s : Store) (tx : Transaction) : Store :=
  updatePendingIndex
    { s with transactions := fun i => if i = tx.id then some (copyTransaction tx) else s.transactions i }
    tx.id tx.status

inductive StoreError where
  | notFound
  | alreadyExists
deriving DecidableEq, Repr

/-- SaveIfNotExists: insert only when the ID is absent; the single
submission-idempotency primitive. -/
def Store.saveIfNotExists (s : Store) (tx : Transaction) : Store × Option StoreError :=
  match s.transactions tx.id with
  | some _ => (s, some .alreadyExists)
  | none =>
    (updatePendingIndex
      { s with transactions := fun i => if i = tx.id then some (copyTransaction tx) else s.transactions i }
      tx.id tx.status, none)

/-- Result of UpdateFunc: on success it carries the installed record
(the Go closure communicates it through a captured variable). -/
inductive UpdateOutcome (ε : Type) where
  | ok (installed : Transaction)
  | notFound
  | mutatorError (e : ε)

/-- UpdateFunc: read the record, run the mutator on a copy, and install
the result only when the mutator returns no error. -/
def Store.updateFunc {ε : Type} (s : Store) (id : String)
    (fn : Transaction → Except ε Transaction) : Store × UpdateOutcome ε :=
  match s.transactions id with
  | none => (s, .notFound)
  | some tx =>
    match fn (copyTransaction tx) with
    | .error e => (s, .mutatorError e)
    | .ok cp =>
      (updatePendingIndex
        { s with transactions := fun i => if i = id then some (copyTransaction cp) else s.transactions i }
        id cp.status, .ok cp)

/-- Clear: drop all records and empty the index. -/
def Store.clear (_ : Store) : Store :=
  { transactions := fun _ => none, pendingIDs := fun _ => false }

/-- One store write operation, for quantifying over operation
sequences. The mutator error type is fixed to String. -/
inductive StoreOp where
  | save (tx : Transaction)
  | saveIfNotExists (tx : Transaction)
  | update (id : String) (fn : Transaction → Except String Transaction)
  | clear

/-- Apply one operation to the store, dropping the returned result. -/
def applyStoreOp (s : Store) : StoreOp → Store
  | .save tx => s.save tx
  | .saveIfNotExists tx => (s.saveIfNotExists tx).1
  | .update id fn => (s.updateFunc id fn).1
  | .clear => s.clear

/-- The pending-ID index invariant: the index holds exactly the IDs
whose stored status is Scheduled or Retrying. -/
def pendingInvariant (s : Store) : Prop :=
  ∀ id, s.pendingIDs id = true ↔
    ∃ tx, s.transactions id = some tx ∧ isPendingStatus tx.status = true

/-! ## Retry engine (internal/retry/engine.go) -/

/-- Error kinds of the engine, matching its sentinel errors. -/
inductive RetryError where
  | notFound
  | notRetryable
  | attemptsExhausted
deriving DecidableEq, Repr

/-- Error result of the ExecuteRetry phase-C mutator. runtimeFault
models a nil dereference or index out of range inside the callback. -/
inductive MutatorError where
  | notRetryable
  | runtimeFault
deriving DecidableEq, Repr

inductive SubmitError where
  | alreadyExists
deriving DecidableEq, Repr

/-- Engine-visible state: the store plus the event list recorded by the
webhook notifier (Notifier.Send appends one event per call). -/
structure EngState where
  store : Store
  events : List WebhookEvent

/-- Notifier.Send: record one event built from the transaction
snapshot, the event type and the attempt number. -/
def sendEvent (s : EngState) (tx : Transaction) (eventType : String)
    (attemptNumber : Nat) (now : Int) : EngState :=
  { s with events := s.events ++
      [{ eventType := eventType, transactionID := tx.id, status := tx.status,
         attemptNumber := attemptNumber, timestamp := now }] }

/-- The created-at instant of Submit: the parsed RFC-3339 timestamp
when present and well formed, otherwise now. Parsing is an external
collaborator (the Go standard library), passed as a function. -/
def parsedSubmitTime (parseTime : String → Option Int) (now : Int) (req : SubmitRequest) : Int :=
  if req.timestamp = "" then now
  else
    match parseTime req.timestamp with
    | some t => t
    | none => now

/-- Engine.Submit, with time.Now fixed to the parameter now. The outer
none models a runtime fault while building the plan. -/
def submit (parseTime : String → Option Int) (strategies : String → Option RetryStrategy)
    (now : Int) (s : EngState) (req : SubmitRequest) :
    Option (EngState × Except SubmitError SubmitResponse) :=
  let cr := classifyDecline strategies req.declineCode
  let parsedTime := parsedSubmitTime parseTime now req
  let tx : Transaction :=
    { id := req.transactionID, amount := req.amount, currency := req.currency,
      customerID := req.customerID, merchantID := req.merchantID,
      originalProcessor := req.originalProcessor, declineCode := req.declineCode,
      declineCategory := cr.1, status := .rejected, retryPlan := none,
      retryAttempts := [], nextRetryAt := none, createdAt := parsedTime,
      updatedAt := now, webhookURL := req.webhookURL }
  if cr.1 = .hard then
    let txh := { tx with status := TransactionStatus.rejected }
    match (s.store.saveIfNotExists txh).2 with
    | some _ => some (s, .error .alreadyExists)
    | none =>
      some ({ s with store := (s.store.saveIfNotExists txh).1 },
        .ok { transactionID := txh.id, declineCategory := cr.1, status := txh.status,
              retryEligible := false, retryPlan := none,
              message := "Hard decline: " ++ cr.2 ++ ". Transaction will not be retried." })
  else
    match buildRetryPlan strategies req.declineCode req.originalProcessor now with
    | none => none
    | some none => none
    | some (some plan) =>
      let txs := { tx with
                    status := TransactionStatus.scheduled
                    retryPlan := some plan
                    nextRetryAt := plan.scheduledTimes.head? }
      match (s.store.saveIfNotExists txs).2 with
      | some _ => some (s, .error .alreadyExists)
      | none =>
        some (sendEvent { s with store := (s.store.saveIfNotExists txs).1 }
                txs eventRetryScheduled 0 now,
          .ok { transactionID := txs.id, declineCategory := cr.1, status := txs.status,
                retryEligible := true, retryPlan := some plan,
                message := "Soft decline: " ++ cr.2 ++ ". Scheduled " ++
                  toString plan.maxAttempts ++ " retry attempts." })

/-- The phase-C mutator of ExecuteRetry: re-validate the status and the
attempt count inside the lock, then append the attempt and transition. -/
def executeRetryMutator (attemptNum : Nat) (attempt : RetryAttempt) (success : Bool)
    (now : Int) (tx : Transaction) : Except MutatorError Transaction :=
  if ¬(tx.status = .scheduled ∨ tx.status = .retrying) then .error .notRetryable
  else if tx.retryAttempts.length + 1 ≠ attemptNum then .error .notRetryable
  else
    let tx1 := { tx with retryAttempts := tx.retryAttempts ++ [attempt], updatedAt := now }
    if success then .ok { tx1 with status := .recovered, nextRetryAt := none }
    else
      match tx.retryPlan with
      | none => .error .runtimeFault
      | some plan =>
        if plan.maxAttempts ≤ attemptNum then
          .ok { tx1 with status := .failedFinal, nextRetryAt := none }
        else
          match plan.scheduledTimes.get? attemptNum with
          | none => .error .runtimeFault
          | some nextRetry => .ok { tx1 with status := .retrying, nextRetryAt := some nextRetry }

/-- The event type chosen by the switch on the committed status. -/
def eventTypeForStatus (status : TransactionStatus) : String :=
  match status with
  | .recovered => eventRetrySucceeded
  | .failedFinal => eventRetryExhausted
  | _ => eventRetryFailed

/-- Engine.ExecuteRetry, with the processor adapter passed as a
function from (declineCode, attemptNum, processor) to its result and
time.Now fixed to the parameter now. none models a runtime fault
(index out of range or nil dereference). -/
def executeRetry (sim : String → Nat → String → SimResult) (now : Int)
    (s : EngState) (txID : String) : Option (EngState × Except RetryError Unit) :=
  match s.store.transactions txID with
  | none => some (s, .error .notFound)
  | some tx0 =>
    let tx := copyTransaction tx0
    if ¬(tx.status = .scheduled ∨ tx.status = .retrying) then some (s, .error .notRetryable)
    else
      match tx.retryPlan with
      | none => some (s, .error .notRetryable)
      | some plan =>
        let attemptNum := tx.retryAttempts.length + 1
        if plan.maxAttempts < attemptNum then
          let store1 := (s.store.updateFunc txID (fun t =>
            (Except.ok { t with status := .failedFinal, nextRetryAt := none, updatedAt := now } :
              Except MutatorError Transaction))).1
          some (sendEvent { s with store := store1 } tx eventRetryExhausted (attemptNum - 1) now,
            .error .attemptsExhausted)
        else
          match plan.processors.get? (attemptNum - 1) with
          | none => none
          | some processor =>
            match plan.scheduledTimes.get? (attemptNum - 1) with
            | none => none
            | some scheduledAt =>
              let result := sim tx.declineCode attemptNum processor
              let attempt : RetryAttempt :=
                { attemptNumber := attemptNum, processor := processor,
                  scheduledAt := scheduledAt, executedAt := now,
                  success := result.success, responseCode := result.responseCode,
                  responseMsg := result.responseMessage }
              match s.store.updateFunc txID (executeRetryMutator attemptNum attempt result.success now) with
              | (_, .notFound) => some (s, .error .notFound)
              | (_, .mutatorError MutatorError.notRetryable) => some (s, .error .notRetryable)
              | (_, .mutatorError MutatorError.runtimeFault) => none
              | (store1, .ok installed) =>
                some (sendEvent { s with store := store1 } tx
                        (eventTypeForStatus installed.status) attemptNum now,
                  .ok ())

/-- True when Submit for this request and instant cannot hit a runtime
fault while building the plan; this depends only on the strategy table,
the decline code, the original processor and the instant. -/
def submitBuildsPlan (strategies : String → Option RetryStrategy)
    (req : SubmitRequest) (now : Int) : Bool :=
  match (classifyDecline strategies req.declineCode).1 with
  | .hard => true
  | .soft =>
    match buildRetryPlan strategies req.declineCode req.originalProcessor now with
    | some (some _) => true
    | _ => false

/-- Run a sequence of Submit calls, each with its own wall-clock
instant, threading the engine state. -/
def runSubmits (parseTime : String → Option Int) (strategies : String → Option RetryStrategy) :
    EngState → List (Int × SubmitRequest) →
    Option (EngState × List (Except SubmitError SubmitResponse))
  | s, [] => some (s, [])
  | s, c :: rest =>
    match submit parseTime strategies c.1 s c.2 with
    | none => none
    | some (s1, out) =>
      match runSubmits parseTime strategies s1 rest with
      | none => none
      | some (s2, outs) => some (s2, out :: outs)

/-! ## Strategy-override configuration (internal/domain/config.go) -/

/-- StrategyConfig: the JSON representation of a strategy override.
Duration fields stay strings; parsing them is delegated to a parameter
standing for the Go standard-library duration parser. -/
structure StrategyConfig where
  maxAttempts : Int
  delays : List String
  perAttemptRates : List ℚ
  useAltProcessor : Bool
  backoffType : String
  baseDelay : String
  backoffMultiplier : ℚ
  businessHoursStart : Int
  businessHoursEnd : Int
  description : String
deriving DecidableEq, Repr

/-- A StrategyConfig with every field at its Go zero value. -/
def StrategyConfig.zero : StrategyConfig :=
  { maxAttempts := 0, delays := [], perAttemptRates := [], useAltProcessor := false,
    backoffType := "", baseDelay := "", backoffMultiplier := 0,
    businessHoursStart := 0, businessHoursEnd := 0, description := "" }

/-- Validation errors of validateStrategyConfig, one constructor per
error site, each carrying the offending decline code. -/
inductive ConfigError where
  | invalidBackoffType (code : String)
  | invalidMultiplier (code : String)
  | businessHoursOutOfRange (code : String)
  | businessHoursStartNotBeforeEnd (code : String)
  | invalidRate (code : String)
  | invalidDelay (code : String)
  | invalidBaseDelay (code : String)
deriving DecidableEq, Repr

/-- validateStrategyConfig: checks run before an override is applied. -/
def validateStrategyConfig (code : String) (cfg : StrategyConfig) : Except ConfigError Unit :=
  if cfg.backoffType ≠ "" ∧ cfg.backoffType ≠ "fixed" ∧
      cfg.backoffType ≠ "exponential" ∧ cfg.backoffType ≠ "business_hours" then
    .error (.invalidBackoffType code)
  else if 0 < cfg.backoffMultiplier ∧ cfg.backoffMultiplier ≤ 1 then
    .error (.invalidMultiplier code)
  else if (0 < cfg.businessHoursStart ∨ 0 < cfg.businessHoursEnd) ∧
      (23 < cfg.businessHoursStart ∨ 23 < cfg.businessHoursEnd) then
    .error (.businessHoursOutOfRange code)
  else if (0 < cfg.businessHoursStart ∨ 0 < cfg.businessHoursEnd) ∧
      cfg.businessHoursEnd ≤ cfg.businessHoursStart then
    .error (.businessHoursStartNotBeforeEnd code)
  else if cfg.perAttemptRates.any (fun rate => decide (rate < 0) || decide (1 < rate)) then
    .error (.invalidRate code)
  else .ok ()

/-- The strategy built from scratch for a decline code new to the
table: only the code and the soft category are set, the rest are Go
zero values. -/
def freshStrategy (code : String) : RetryStrategy :=
  { declineCode := code, category := .soft, maxAttempts := 0, delays := [],
    perAttemptRates := [], useAltProcessor := false, description := "",
    backoffType := "", baseDelay := 0, backoffMultiplier := 0,
    businessHoursStart := 0, businessHoursEnd := 0 }

/-- The delays-field merge step: parse every delay string when the
list is non-empty, failing on the first unparseable one. -/
def delaysUpdate (parseDuration : String → Option Int) (code : String)
    (cfg : StrategyConfig) (s : RetryStrategy) : Except ConfigError RetryStrategy :=
  if 0 < cfg.delays.length then
    match cfg.delays.mapM parseDuration with
    | none => .error (.invalidDelay code)
    | some ds => .ok { s with delays := ds }
  else .ok s

/-- The base-delay merge step: parse the string when non-empty. -/
def baseDelayUpdate (parseDuration : String → Option Int) (code : String)
    (cfg : StrategyConfig) (s : RetryStrategy) : Except ConfigError RetryStrategy :=
  if cfg.baseDelay ≠ "" then
    match parseDuration cfg.baseDelay with
    | none => .error (.invalidBaseDelay code)
    | some d => .ok { s with baseDelay := d }
  else .ok s

/-- Merging one override into the table: validate, then apply each
non-zero field to the existing entry (or a fresh one), then write the
whole entry back. The table write is the last step, so a single entry
is updated all-or-nothing. -/
def applyOne (parseDuration : String → Option Int) (table : String → Option RetryStrategy)
    (code : String) (cfg : StrategyConfig) :
    Except ConfigError (String → Option RetryStrategy) :=
  match validateStrategyConfig code cfg with
  | .error e => .error e
  | .ok _ =>
    let e0 := match table code with
      | some s => s
      | none => freshStrategy code
    let e1 := if 0 < cfg.maxAttempts then { e0 with maxAttempts := cfg.maxAttempts.toNat } else e0
    match delaysUpdate parseDuration code cfg e1 with
    | .error er => .error er
    | .ok e2 =>
      let e3 := if 0 < cfg.perAttemptRates.length then { e2 with perAttemptRates := cfg.perAttemptRates } else e2
      let e4 := if cfg.useAltProcessor then { e3 with useAltProcessor := true } else e3
      let e5 := if cfg.description ≠ "" then { e4 with description := cfg.description } else e4
      let e6 := if cfg.backoffType ≠ "" then { e5 with backoffType := cfg.backoffType } else e5
      match baseDelayUpdate parseDuration code cfg e6 with
      | .error er => .error er
      | .ok e7 =>
        let e8 := if 0 < cfg.backoffMultiplier then { e7 with backoffMultiplier := cfg.backoffMultiplier } else e7
        let e9 := if 0 < cfg.businessHoursStart ∨ 0 < cfg.businessHoursEnd then
            { e8 with businessHoursStart := cfg.businessHoursStart,
                      businessHoursEnd := cfg.businessHoursEnd }
          else e8
        .ok (fun c => if c = code then some e9 else table c)

/-- ApplyStrategyOverrides: merge each override in iteration order into
the runtime table, stopping at the first error. The Go function
mutates a global map and returns an error; the embedding returns the
resulting table together with the error, making the partially updated
table observable. Iteration order of the Go map is made explicit by
the association list. -/
def applyStrategyOverrides (parseDuration : String → Option Int)
    (table : String → Option RetryStrategy) :
    List (String × StrategyConfig) → (String → Option RetryStrategy) × Option ConfigError
  | [] => (table, none)
  | (code, cfg) :: rest =>
    match applyOne parseDuration table code cfg with
    | .error e => (table, some e)
    | .ok table1 => applyStrategyOverrides parseDuration table1 rest

/-- True when one override entry passes validation and all its duration
strings parse, which is exactly when applyOne succeeds on it. -/
def entryValid (parseDuration : String → Option Int) (code : String)
    (cfg : StrategyConfig) : Bool :=
  (validateStrategyConfig code cfg).isOk &&
  cfg.delays.all (fun d => (parseDuration d).isSome) &&
  (decide (cfg.baseDelay = "") || (parseDuration cfg.baseDelay).isSome)

/-! ## Spec-side definitions for refinement comparison -/

/-- Modelled from the spec: the exponential schedule exactly as the
spec formula states it, scheduled_times[i] = base_time plus the sum
over k = 0..i of base_delay times multiplier to the k, in exact
rational arithmetic with no truncation to whole nanoseconds. -/
def specExponentialTimes (strategy : RetryStrategy) (baseTime : Int) : List ℚ :=
  let mult := effectiveMultiplier strategy
  let base := ((effectiveBaseDelay strategy : Int) : ℚ)
  (List.range strategy.maxAttempts).map (fun i =>
    (baseTime : ℚ) + ((List.range (i + 1)).map (fun k => base * mult ^ k)).sum)

/-! ## Helper lemmas -/

/-! ## Concrete instances used by witnesses and counterexamples -/

/-- The business-hours strategy of the spec snap example: window 9 to
17, delays of 2 hours and 24 hours. -/
def bhExampleStrategy : RetryStrategy :=
  { declineCode := "insufficient_funds", category := .soft, maxAttempts := 2,
    delays := [2 * nsPerHour, 24 * nsPerHour], perAttemptRates := [],
    useAltProcessor := false, description := "", backoffType := "business_hours",
    baseDelay := 0, backoffMultiplier := 0, businessHoursStart := 9,
    businessHoursEnd := 17 }

/-- 2025-01-01T16:00:00Z in nanoseconds. -/
def bhExampleBase : Int := 1735747200000000000

/-- The expected schedule: 2025-01-02T09:00:00Z (snapped from 18:00)
and 2025-01-02T16:00:00Z (kept). -/
def bhExampleTimes : List Int := [1735808400000000000, 1735833600000000000]

/-- The exact spec formula and the truncating code disagree already at
a 1ns base delay with multiplier 1.5: float64(1) * 1.5 is exactly 1.5
and time.Duration(1.5) is 1ns, so the second scheduled time is
base + 2ns while the spec formula yields base + 2.5ns. -/
def cexExpStrategy : RetryStrategy :=
  { declineCode := "issuer_timeout", category := .soft, maxAttempts := 2,
    delays := [], perAttemptRates := [], useAltProcessor := false,
    description := "", backoffType := "exponential", baseDelay := 1,
    backoffMultiplier := 3 / 2, businessHoursStart := 0, businessHoursEnd := 0 }

/-- The plan built for the default issuer_timeout strategy from
stripe_latam at instant 0, for the C8 witness. -/
def altExamplePlan : RetryPlan :=
  { maxAttempts := 3,
    strategy := "Network issue; retry immediately via alternative processor",
    declineCode := "issuer_timeout",
    scheduledTimes := [0, 300000000000, 1800000000000],
    processors := ["stripe_latam", "adyen_apac", "dlocal_br"] }

/-- A terminal transaction used by the C2 witness. -/
def c2Transaction : Transaction :=
  { id := "t1", amount := 0, currency := "USD", customerID := "c1", merchantID := "m1",
    originalProcessor := "stripe_latam", declineCode := "stolen_card",
    declineCategory := .hard, status := .rejected, retryPlan := none,
    retryAttempts := [], nextRetryAt := none, createdAt := 0, updatedAt := 0,
    webhookURL := "" }

/-- A store holding only that transaction, for the C2 witness. -/
def c2Store : Store :=
  { transactions := fun i => if i = "t1" then some c2Transaction else none,
    pendingIDs := fun _ => false }

/-- A retry attempt used by the C2 witness. -/
def c2Attempt : RetryAttempt :=
  { attemptNumber := 1, processor := "stripe_latam", scheduledAt := 0, executedAt := 0,
    success := false, responseCode := "DECLINE_stolen_card", responseMsg := "" }

/-- The stored record that Submit writes for a hard decline. -/
def rejectedTransaction (req : SubmitRequest) (createdAt now : Int) : Transaction :=
  { id := req.transactionID, amount := req.amount, currency := req.currency,
    customerID := req.customerID, merchantID := req.merchantID,
    originalProcessor := req.originalProcessor, declineCode := req.declineCode,
    declineCategory := DeclineCategory.hard, status := TransactionStatus.rejected,
    retryPlan := none, retryAttempts := [], nextRetryAt := none,
    createdAt := createdAt, updatedAt := now, webhookURL := req.webhookURL }

/-- The store state after Submit persists a hard decline. -/
def hardSubmitStore (s : Store) (req : SubmitRequest) (createdAt now : Int) : Store :=
  updatePendingIndex
    { s with transactions := fun i =>
        if i = req.transactionID then some (rejectedTransaction req createdAt now)
        else s.transactions i }
    req.transactionID TransactionStatus.rejected

/-- A strategy table extended at runtime with an override entry for
the hard code stolen_card, for the C10 witness. -/
def c10Table : String → Option RetryStrategy :=
  (applyStrategyOverrides (fun _ => none) defaultStrategies
    [("stolen_card", { StrategyConfig.zero with maxAttempts := 3 })]).1

/-- The hard-decline request of the C10 witness. -/
def c10Request : SubmitRequest :=
  { transactionID := "txh1", amount := 100, currency := "USD", customerID := "c1",
    merchantID := "m1", originalProcessor := "stripe_latam",
    declineCode := "stolen_card", timestamp := "", webhookURL := "" }

/-- The stored record that Submit writes for a scheduled soft decline. -/
def scheduledTransaction (req : SubmitRequest) (plan : RetryPlan) (createdAt now : Int) :
    Transaction :=
  { id := req.transactionID, amount := req.amount, currency := req.currency,
    customerID := req.customerID, merchantID := req.merchantID,
    originalProcessor := req.originalProcessor, declineCode := req.declineCode,
    declineCategory := DeclineCategory.soft, status := TransactionStatus.scheduled,
    retryPlan := some plan, retryAttempts := [],
    nextRetryAt := plan.scheduledTimes.head?,
    createdAt := createdAt, updatedAt := now, webhookURL := req.webhookURL }

/-- The store state after Submit persists a scheduled soft decline. -/
def softSubmitStore (s : Store) (req : SubmitRequest) (plan : RetryPlan)
    (createdAt now : Int) : Store :=
  updatePendingIndex
    { s with transactions := fun i =>
        if i = req.transactionID then some (scheduledTransaction req plan createdAt now)
        else s.transactions i }
    req.transactionID TransactionStatus.scheduled

/-- The repeated soft-decline request of the C3 witness. -/
def c3Request : SubmitRequest :=
  { transactionID := "t3", amount := 100, currency := "USD", customerID := "c1",
    merchantID := "m1", originalProcessor := "stripe_latam",
    declineCode := "insufficient_funds", timestamp := "", webhookURL := "" }

/-- Modelled from the spec transition table: the appended attempt row. -/
def commitAttempt (n : Nat) (processor : String) (scheduledAt now : Int)
    (res : SimResult) : RetryAttempt :=
  { attemptNumber := n, processor := processor, scheduledAt := scheduledAt,
    executedAt := now, success := res.success, responseCode := res.responseCode,
    responseMsg := res.responseMessage }

/-- Modelled from the spec transition table: the committed record after
attempt n, with the status transition and next_retry_at handling. -/
def committedTransaction (tx : Transaction) (plan : RetryPlan) (att : RetryAttempt)
    (success : Bool) (n : Nat) (now : Int) : Transaction :=
  { tx with
    retryAttempts := tx.retryAttempts ++ [att]
    updatedAt := now
    status := (if success then TransactionStatus.recovered
      else if n = plan.maxAttempts then TransactionStatus.failedFinal
      else TransactionStatus.retrying)
    nextRetryAt := (if success ∨ n = plan.maxAttempts then none
      else plan.scheduledTimes.get? n) }

/-- Modelled from the spec: the event type keyed by the final status. -/
def commitEventType (success : Bool) (n maxAttempts : Nat) : String :=
  if success then eventRetrySucceeded
  else if n = maxAttempts then eventRetryExhausted
  else eventRetryFailed

/-- The store state after UpdateFunc installs a mutated record. -/
def commitStore (s : Store) (id : String) (cp : Transaction) : Store :=
  updatePendingIndex
    { s with transactions := fun i => if i = id then some cp else s.transactions i }
    id cp.status

/-- A one-attempt plan for the C1 witness. -/
def c1Plan : RetryPlan :=
  { maxAttempts := 1, strategy := "", declineCode := "issuer_timeout",
    scheduledTimes := [0], processors := ["stripe_latam"] }

/-- A scheduled transaction holding that plan, for the C1 witness. -/
def c1Transaction : Transaction :=
  { id := "t1", amount := 0, currency := "USD", customerID := "c1", merchantID := "m1",
    originalProcessor := "stripe_latam", declineCode := "issuer_timeout",
    declineCategory := .soft, status := .scheduled, retryPlan := some c1Plan,
    retryAttempts := [], nextRetryAt := some 0, createdAt := 0, updatedAt := 0,
    webhookURL := "" }

/-- The engine state holding that transaction, for the C1 witness. -/
def c1State : EngState :=
  { store := { transactions := fun i => if i = "t1" then some c1Transaction else none,
               pendingIDs := fun i => decide (i = "t1") },
    events := [] }

/-- An adapter oracle that always approves, for the C1 witness. -/
def c1Sim : String → Nat → String → SimResult :=
  fun _ _ _ => { success := true, responseCode := "APPROVED", responseMessage := "ok" }

/-- The override list of the C9 counterexample: a valid entry followed
by one with an unknown backoff type. -/
def cexOverrides : List (String × StrategyConfig) :=
  [("insufficient_funds", { StrategyConfig.zero with maxAttempts := 5 }),
   ("mystery_code", { StrategyConfig.zero with backoffType := "bogus" })]

theorem mapM_option_eq_some_map {α β : Type} (f : α → Option β) (g : α → β) :
    ∀ l : List α, (∀ a ∈ l, f a = some (g a)) → l.mapM f = some (l.map g) := by
  intro l
  induction l with
  | nil => intro _; rfl
  | cons a l ih =>
    intro h
    rw [List.mapM_cons, h a (by simp), ih (fun b hb => h b (by simp [hb]))]
    rfl

theorem mapM_option_some_length {α β : Type} (f : α → Option β) :
    ∀ (l : List α) (ys : List β), l.mapM f = some ys → ys.length = l.length := by
  intro l
  induction l with
  | nil =>
    intro ys h
    simp only [List.mapM_nil, pure, Option.some_inj] at h
    simp [← h]
  | cons a l ih =>
    intro ys h
    rw [List.mapM_cons] at h
    match ha : f a with
    | none => rw [ha] at h; simp at h
    | some b =>
      rw [ha] at h
      match hl : l.mapM f with
      | none => rw [hl] at h; simp [Option.bind] at h
      | some zs =>
        rw [hl] at h
        simp only [Option.bind_eq_bind, Option.some_bind, pure, Option.some_inj] at h
        subst h
        simp [ih zs hl]

theorem mapM_option_some_get {α β : Type} (f : α → Option β) :
    ∀ (l : List α) (ys : List β), l.mapM f = some ys →
      ∀ (i : Nat) (hi : i < l.length) (hj : i < ys.length),
        f (l.get ⟨i, hi⟩) = some (ys.get ⟨i, hj⟩) := by
  intro l
  induction l with
  | nil => intro ys h i hi; exact absurd hi (by simp)
  | cons a l ih =>
    intro ys h i hi hj
    rw [List.mapM_cons] at h
    match ha : f a with
    | none => rw [ha] at h; simp at h
    | some b =>
      rw [ha] at h
      match hl : l.mapM f with
      | none => rw [hl] at h; simp [Option.bind] at h
      | some zs =>
        rw [hl] at h
        simp only [Option.bind_eq_bind, Option.some_bind, pure, Option.some_inj] at h
        subst h
        match i with
        | 0 => simpa using ha
        | i + 1 =>
          simp only [List.get_cons_succ]
          exact ih zs hl i (by simpa using hi) (by simpa using hj)

/-! ## C7: fixed-delay schedule -/

theorem fixedCandidate_eq_of_nonempty (delays : List Int) (baseTime : Int) (i : Nat)
    (h1 : 1 ≤ delays.length) :
    fixedCandidate delays baseTime i =
      some (baseTime + delays.getD (min i (delays.length - 1)) 0) := by
  unfold fixedCandidate
  by_cases h : i < delays.length
  · rw [dif_pos h]
    have hmin : min i (delays.length - 1) = i := by omega
    rw [hmin, List.getD_eq_get?, List.get?_eq_get h]
    rfl
  · rw [dif_neg h]
    have hmin : min i (delays.length - 1) = delays.length - 1 := by omega
    have hlt : delays.length - 1 < delays.length := by omega
    rw [hmin, List.getD_eq_get?, List.get?_eq_get hlt, List.getLast?_eq_get?,
      List.get?_eq_get hlt]
    rfl

/-- C7: for a well-formed Fixed strategy, with 1 <= len(delays) <=
max_attempts, buildFixedTimes is total (no out-of-range access, so it
returns some list rather than the runtime-fault none) and returns
scheduled_times[i] = base_time + delays[min(i, len(delays)-1)] for
every attempt slot i. -/
theorem buildFixedTimes_spec (strategy : RetryStrategy) (baseTime : Int)
    (h1 : 1 ≤ strategy.delays.length) (h2 : strategy.delays.length ≤ strategy.maxAttempts) :
    buildFixedTimes strategy baseTime =
      some ((List.range strategy.maxAttempts).map (fun i =>
        baseTime + strategy.delays.getD (min i (strategy.delays.length - 1)) 0)) := by
  unfold buildFixedTimes
  exact mapM_option_eq_some_map _ _ _
    (fun i _ => fixedCandidate_eq_of_nonempty strategy.delays baseTime i h1)

/-- C7 witness: the default insufficient_funds strategy, anchored at
2025-01-01T12:00:00Z, satisfies the precondition and produces the
delays as absolute offsets from base. -/
theorem buildFixedTimes_spec_witness :
    (1 ≤ ((defaultStrategies "insufficient_funds").getD
        (freshStrategy "x")).delays.length ∧
      ((defaultStrategies "insufficient_funds").getD
        (freshStrategy "x")).delays.length ≤
      ((defaultStrategies "insufficient_funds").getD
        (freshStrategy "x")).maxAttempts) ∧
    buildFixedTimes ((defaultStrategies "insufficient_funds").getD (freshStrategy "x"))
        1735732800000000000 =
      some ((List.range ((defaultStrategies "insufficient_funds").getD
          (freshStrategy "x")).maxAttempts).map (fun i =>
        1735732800000000000 + ((defaultStrategies "insufficient_funds").getD
          (freshStrategy "x")).delays.getD
            (min i (((defaultStrategies "insufficient_funds").getD
              (freshStrategy "x")).delays.length - 1)) 0)) :=
  ⟨⟨by decide, by decide⟩,
    buildFixedTimes_spec ((defaultStrategies "insufficient_funds").getD (freshStrategy "x"))
      1735732800000000000 (by decide) (by decide)⟩

/-! ## C6: business-hours schedule -/

theorem hourOf_nonneg_lt (t : Int) : 0 ≤ hourOf t ∧ hourOf t < 24 := by
  simp only [hourOf, nsPerHour]
  omega

theorem hourOf_dayStart_add (t st : Int) (h0 : 0 ≤ st) (h24 : st < 24) :
    hourOf (dayStart t + st * nsPerHour) = st := by
  simp only [hourOf, dayStart, nsPerHour, nsPerDay]
  omega

theorem hourOf_add_nsPerDay (x : Int) : hourOf (x + nsPerDay) = hourOf x := by
  simp only [hourOf, nsPerDay, nsPerHour]
  omega

/-- The snap rule, phrased the way the spec states it: keep a candidate
inside the window, move to start:00:00 of the same day when before the
window, and to start:00:00 of the next day when at or after its end. -/
theorem snapToBusinessHours_characterization (t st en : Int) (hlt : st < en) :
    snapToBusinessHours t st en =
      (if st ≤ hourOf t ∧ hourOf t < en then t
       else if hourOf t < st then dayStart t + st * nsPerHour
       else dayStart t + st * nsPerHour + nsPerDay) := by
  unfold snapToBusinessHours
  by_cases hin : st ≤ hourOf t ∧ hourOf t < en
  · rw [if_pos hin, if_pos hin]
  · rw [if_neg hin, if_neg hin]
    by_cases hbefore : hourOf t < st
    · rw [if_pos hbefore, if_neg (by omega)]
    · rw [if_neg hbefore, if_pos (by omega)]

theorem snapToBusinessHours_mem (t st en : Int) (h0 : 0 ≤ st) (hlt : st < en)
    (hle : en ≤ 24) :
    st ≤ hourOf (snapToBusinessHours t st en) ∧
      hourOf (snapToBusinessHours t st en) < en := by
  unfold snapToBusinessHours
  by_cases hin : st ≤ hourOf t ∧ hourOf t < en
  · rw [if_pos hin]
    exact hin
  · rw [if_neg hin]
    by_cases hafter : en ≤ hourOf t
    · rw [if_pos hafter, hourOf_add_nsPerDay, hourOf_dayStart_add t st h0 (by omega)]
      omega
    · rw [if_neg hafter, hourOf_dayStart_add t st h0 (by omega)]
      omega

/-- C6: for a BusinessHours strategy whose effective window (with 9-17
substituted when both configured bounds are zero) is a valid window,
every produced scheduled time is the Fixed-style candidate when that
candidate falls inside the window, and otherwise the window start of
the same day (candidate before the window) or of the next day
(candidate at or after the window end); consequently every produced
time has its hour inside [start, end). -/
theorem buildBusinessHoursTimes_spec (strategy : RetryStrategy) (baseTime : Int)
    (ts : List Int)
    (h0 : 0 ≤ (businessWindow strategy).1)
    (hlt : (businessWindow strategy).1 < (businessWindow strategy).2)
    (hle : (businessWindow strategy).2 ≤ 24)
    (hts : buildBusinessHoursTimes strategy baseTime = some ts) :
    (strategy.businessHoursStart = 0 ∧ strategy.businessHoursEnd = 0 →
      businessWindow strategy = (9, 17)) ∧
    ∀ (i : Nat) (h : i < ts.length), ∃ c,
      fixedCandidate strategy.delays baseTime i = some c ∧
      ts.get ⟨i, h⟩ =
        (if (businessWindow strategy).1 ≤ hourOf c ∧ hourOf c < (businessWindow strategy).2
          then c
          else if hourOf c < (businessWindow strategy).1
            then dayStart c + (businessWindow strategy).1 * nsPerHour
            else dayStart c + (businessWindow strategy).1 * nsPerHour + nsPerDay) ∧
      (businessWindow strategy).1 ≤ hourOf (ts.get ⟨i, h⟩) ∧
        hourOf (ts.get ⟨i, h⟩) < (businessWindow strategy).2 := by
  constructor
  · intro hz
    unfold businessWindow
    rw [if_pos hz]
  · intro i h
    unfold buildBusinessHoursTimes at hts
    have hlen : ts.length = (List.range strategy.maxAttempts).length :=
      mapM_option_some_length _ _ _ hts
    have hi : i < (List.range strategy.maxAttempts).length := by omega
    have hget := mapM_option_some_get _ _ _ hts i hi h
    rw [List.get_range] at hget
    rw [Option.map_eq_some'] at hget
    obtain ⟨c, hc, hsnap⟩ := hget
    refine ⟨c, hc, ?_, ?_⟩
    · rw [← hsnap]
      exact (snapToBusinessHours_characterization c _ _ hlt).symm ▸ rfl
    · rw [← hsnap]
      exact snapToBusinessHours_mem c _ _ h0 hlt hle

/-- C6 witness: the snap example evaluates as expected and the theorem
applies to its first slot. -/
theorem buildBusinessHoursTimes_spec_witness :
    buildBusinessHoursTimes bhExampleStrategy bhExampleBase = some bhExampleTimes ∧
    ∃ c, fixedCandidate bhExampleStrategy.delays bhExampleBase 0 = some c ∧
      bhExampleTimes.get ⟨0, by decide⟩ =
        (if (businessWindow bhExampleStrategy).1 ≤ hourOf c ∧
            hourOf c < (businessWindow bhExampleStrategy).2 then c
          else if hourOf c < (businessWindow bhExampleStrategy).1
            then dayStart c + (businessWindow bhExampleStrategy).1 * nsPerHour
            else dayStart c + (businessWindow bhExampleStrategy).1 * nsPerHour + nsPerDay) ∧
      (businessWindow bhExampleStrategy).1 ≤ hourOf (bhExampleTimes.get ⟨0, by decide⟩) ∧
        hourOf (bhExampleTimes.get ⟨0, by decide⟩) < (businessWindow bhExampleStrategy).2 :=
  ⟨by decide,
    (buildBusinessHoursTimes_spec bhExampleStrategy bhExampleBase bhExampleTimes
      (by decide) (by decide) (by decide) (by decide)).2 0 (by decide)⟩

/-! ## C5: exponential schedule -/

theorem truncQ_one_le (q : ℚ) (h : 1 ≤ q) : 1 ≤ truncQ q := by
  unfold truncQ
  rw [if_neg (by linarith)]
  rw [Int.le_floor]
  exact_mod_cast h

theorem effectiveBaseDelay_one_le (strategy : RetryStrategy) :
    1 ≤ effectiveBaseDelay strategy := by
  simp only [effectiveBaseDelay, nsPerMinute]
  split <;> omega

theorem effectiveMultiplier_one_le (strategy : RetryStrategy)
    (h : strategy.backoffMultiplier ≤ 0 ∨ 1 ≤ strategy.backoffMultiplier) :
    1 ≤ effectiveMultiplier strategy := by
  unfold effectiveMultiplier
  by_cases hb : strategy.backoffMultiplier ≤ 0
  · rw [if_pos hb]
    norm_num
  · rw [if_neg hb]
    rcases h with h | h
    · exact absurd h hb
    · exact h

theorem cumDelay_eq_sum (base mult : ℚ) (i : Nat) :
    cumDelay base mult i =
      ((List.range (i + 1)).map (fun k => truncQ (base * mult ^ k))).sum := by
  induction i with
  | zero => simp [cumDelay, show List.range 1 = [0] from rfl]
  | succ k ih =>
    rw [List.range_succ, List.map_append, List.sum_append]
    simp only [cumDelay, ih, List.map_cons, List.map_nil, List.sum_cons, List.sum_nil]
    ring

theorem cumDelay_lt_succ (base mult : ℚ) (hb : 1 ≤ base) (hm : 1 ≤ mult) (i : Nat) :
    cumDelay base mult i < cumDelay base mult (i + 1) := by
  have hp : (1 : ℚ) ≤ mult ^ (i + 1) := one_le_pow₀ hm
  have hq : (1 : ℚ) ≤ base * mult ^ (i + 1) := by nlinarith
  have := truncQ_one_le _ hq
  show cumDelay base mult i < cumDelay base mult i + truncQ (base * mult ^ (i + 1))
  omega

/-- C5 amended: buildExponentialTimes returns
scheduled_times[i] = base_time plus the sum over k = 0..i of the
per-step delays truncated to whole nanoseconds,
trunc(base_delay * multiplier^k), with the substitutions
base_delay = 5 minutes when base_delay <= 0 and multiplier = 2.0 when
multiplier <= 0; the sequence is strictly increasing whenever the
configured multiplier is <= 0 (so the 2.0 default applies) or >= 1,
which covers every multiplier accepted at config load; and the example
with base_delay 10m, multiplier 2.0, max_attempts 3 anchored at
2025-01-01T12:00:00Z yields 12:10, 12:30 and 13:10. -/
theorem buildExponentialTimes_spec :
    (∀ (strategy : RetryStrategy) (baseTime : Int),
      buildExponentialTimes strategy baseTime =
        (List.range strategy.maxAttempts).map (fun i =>
          baseTime + ((List.range (i + 1)).map (fun k =>
            truncQ ((effectiveBaseDelay strategy : ℚ) *
              effectiveMultiplier strategy ^ k))).sum) ∧
      ((strategy.backoffMultiplier ≤ 0 ∨ 1 ≤ strategy.backoffMultiplier) →
        List.Pairwise (fun a b => a < b) (buildExponentialTimes strategy baseTime))) ∧
    buildExponentialTimes
        { declineCode := "issuer_timeout", category := .soft, maxAttempts := 3,
          delays := [], perAttemptRates := [], useAltProcessor := false,
          description := "", backoffType := "exponential",
          baseDelay := 600000000000, backoffMultiplier := 2,
          businessHoursStart := 0, businessHoursEnd := 0 } 1735732800000000000 =
      [1735733400000000000, 1735734600000000000, 1735737000000000000] := by
  constructor
  · intro strategy baseTime
    constructor
    · unfold buildExponentialTimes
      exact List.map_congr_left (fun i _ => by rw [cumDelay_eq_sum])
    · intro h
      have hb : (1 : ℚ) ≤ ((effectiveBaseDelay strategy : Int) : ℚ) := by
        exact_mod_cast effectiveBaseDelay_one_le strategy
      have hm := effectiveMultiplier_one_le strategy h
      unfold buildExponentialTimes
      rw [List.pairwise_map]
      refine (List.pairwise_lt_range _).imp ?_
      intro i j hij
      have hmono : StrictMono (cumDelay ((effectiveBaseDelay strategy : Int) : ℚ)
          (effectiveMultiplier strategy)) :=
        strictMono_nat_of_lt_succ (cumDelay_lt_succ _ _ hb hm)
      have := hmono hij
      omega
  · simp only [buildExponentialTimes, effectiveMultiplier, effectiveBaseDelay]
    norm_num [cumDelay_eq_sum, List.range_succ, truncQ]

/-- C5 witness for the amended theorem: the hypothesis of the
monotonicity part holds at the example strategy with multiplier 2.0,
so its schedule is strictly increasing. -/
theorem buildExponentialTimes_spec_witness :
    List.Pairwise (fun a b => a < b) (buildExponentialTimes
      { declineCode := "issuer_timeout", category := .soft, maxAttempts := 3,
        delays := [], perAttemptRates := [], useAltProcessor := false,
        description := "", backoffType := "exponential",
        baseDelay := 600000000000, backoffMultiplier := 2,
        businessHoursStart := 0, businessHoursEnd := 0 } 1735732800000000000) :=
  (buildExponentialTimes_spec.1 _ 1735732800000000000).2 (Or.inr (by norm_num))

/-- C5 counterexample: the code's schedule is not the schedule of the
exact spec formula. -/
theorem buildExponentialTimes_ne_spec_formula :
    ((buildExponentialTimes cexExpStrategy 0).map (fun t => (t : ℚ))) ≠
      specExponentialTimes cexExpStrategy 0 := by
  have h1 : buildExponentialTimes cexExpStrategy 0 = [1, 2] := by
    simp only [buildExponentialTimes, effectiveMultiplier, effectiveBaseDelay, cexExpStrategy]
    norm_num [cumDelay_eq_sum, List.range_succ, truncQ]
  have h2 : specExponentialTimes cexExpStrategy 0 = [1, 5 / 2] := by
    simp only [specExponentialTimes, effectiveMultiplier, effectiveBaseDelay, cexExpStrategy]
    norm_num [List.range_succ]
  intro h
  rw [h1, h2] at h
  have h3 := congrArg (fun l => l.getD 1 0) h
  norm_num [List.getD] at h3

/-! ## C8: processor slots of the retry plan -/

/-- C8: in every built plan, slot 0 is the original processor; with
use_alt_processor false every slot is the original; with an empty
alternatives list every slot falls back to the original; and with
use_alt_processor true and alternatives present, slot i >= 1 is
alternatives[(i-1) mod len(alternatives)], where the alternatives are
the fixed processor list minus the original in stable order (the
definition of getAvailableProcessors). -/
theorem buildRetryPlan_processors_spec (strategies : String → Option RetryStrategy)
    (code orig : String) (baseTime : Int) (strategy : RetryStrategy) (plan : RetryPlan)
    (hs : strategies code = some strategy)
    (hp : buildRetryPlan strategies code orig baseTime = some (some plan)) :
    plan.processors.length = strategy.maxAttempts ∧
    (∀ h0 : 0 < plan.processors.length, plan.processors.get ⟨0, h0⟩ = orig) ∧
    (strategy.useAltProcessor = false → ∀ p ∈ plan.processors, p = orig) ∧
    (getAvailableProcessors orig = [] → ∀ p ∈ plan.processors, p = orig) ∧
    (strategy.useAltProcessor = true →
      ∀ (i : Nat) (h : i < plan.processors.length), 0 < i →
        0 < (getAvailableProcessors orig).length →
        plan.processors.get ⟨i, h⟩ =
          (getAvailableProcessors orig).getD
            ((i - 1) % (getAvailableProcessors orig).length) "") := by
  cases hts : buildScheduledTimes strategy baseTime with
  | none =>
    simp [buildRetryPlan, hs, hts] at hp
  | some ts =>
    simp only [buildRetryPlan, hs, hts, Option.some.injEq] at hp
    subst hp
    refine ⟨?_, ?_, ?_, ?_, ?_⟩
    · simp
    · intro h0
      simp only [List.get_eq_getElem, List.getElem_map, List.getElem_range]
      simp
    · intro halt p hpmem
      simp only [List.mem_map] at hpmem
      obtain ⟨i, _, hi⟩ := hpmem
      rw [halt] at hi
      simpa using hi.symm
    · intro hempty p hpmem
      simp only [List.mem_map] at hpmem
      obtain ⟨i, _, hi⟩ := hpmem
      rw [hempty] at hi
      simpa using hi.symm
    · intro halt i h hipos hlen
      simp only [List.get_eq_getElem, List.getElem_map, List.getElem_range]
      rw [if_pos ⟨halt, hipos, hlen⟩]

/-- C8 witness: the issuer_timeout plan rotates through the
alternative processors, keeping slot 0 on the original. -/
theorem buildRetryPlan_processors_spec_witness :
    buildRetryPlan defaultStrategies "issuer_timeout" "stripe_latam" 0 =
      some (some altExamplePlan) ∧
    altExamplePlan.processors.get ⟨0, by decide⟩ = "stripe_latam" ∧
    altExamplePlan.processors.get ⟨1, by decide⟩ =
      (getAvailableProcessors "stripe_latam").getD
        ((1 - 1) % (getAvailableProcessors "stripe_latam").length) "" :=
  ⟨by decide,
    (buildRetryPlan_processors_spec defaultStrategies "issuer_timeout" "stripe_latam" 0
      ((defaultStrategies "issuer_timeout").getD (freshStrategy "x")) altExamplePlan
      (by decide) (by decide)).2.1 (by decide),
    (buildRetryPlan_processors_spec defaultStrategies "issuer_timeout" "stripe_latam" 0
      ((defaultStrategies "issuer_timeout").getD (freshStrategy "x")) altExamplePlan
      (by decide) (by decide)).2.2.2.2 (by decide) 1 (by decide) (by decide) (by decide)⟩

/-! ## C4: the pending-ID index invariant -/

theorem updatePendingIndex_transactions (s : Store) (id : String) (status : TransactionStatus) :
    (updatePendingIndex s id status).transactions = s.transactions := by
  unfold updatePendingIndex
  split <;> rfl

theorem updatePendingIndex_pendingIDs (s : Store) (id : String) (status : TransactionStatus)
    (i : String) :
    (updatePendingIndex s id status).pendingIDs i =
      if i = id then isPendingStatus status else s.pendingIDs i := by
  unfold updatePendingIndex
  by_cases hp : isPendingStatus status <;> simp [hp]

theorem pendingInvariant_setKey (s : Store) (tx : Transaction) (key : String)
    (h : pendingInvariant s) :
    pendingInvariant (updatePendingIndex
      { s with transactions := fun i => if i = key then some (copyTransaction tx) else s.transactions i }
      key tx.status) := by
  intro id
  rw [updatePendingIndex_pendingIDs, updatePendingIndex_transactions]
  by_cases hid : id = key
  · subst hid
    simp [copyTransaction]
  · simp only [if_neg hid]
    exact h id

theorem pendingInvariant_step (s : Store) (op : StoreOp) (h : pendingInvariant s) :
    pendingInvariant (applyStoreOp s op) := by
  cases op with
  | save tx =>
    exact pendingInvariant_setKey s tx tx.id h
  | saveIfNotExists tx =>
    show pendingInvariant (s.saveIfNotExists tx).1
    cases hx : s.transactions tx.id with
    | some tx0 =>
      simp only [Store.saveIfNotExists, hx]
      exact h
    | none =>
      simp only [Store.saveIfNotExists, hx]
      exact pendingInvariant_setKey s tx tx.id h
  | update id fn =>
    show pendingInvariant (s.updateFunc id fn).1
    cases hx : s.transactions id with
    | none =>
      simp only [Store.updateFunc, hx]
      exact h
    | some tx =>
      cases hfn : fn (copyTransaction tx) with
      | error e =>
        simp only [Store.updateFunc, hx, hfn]
        exact h
      | ok cp =>
        simp only [Store.updateFunc, hx, hfn]
        exact pendingInvariant_setKey s cp id h
  | clear =>
    intro id
    simp [applyStoreOp, Store.clear]

/-- C4: after any finite sequence of store operations starting from an
empty store, the pending-ID index holds exactly the IDs whose stored
status is Scheduled or Retrying; Clear (which resets to the empty
store) keeps it empty. -/
theorem pendingIndex_invariant (ops : List StoreOp) :
    pendingInvariant (ops.foldl applyStoreOp Store.new) := by
  have hnew : pendingInvariant Store.new := by
    intro id
    simp [Store.new]
  have hstep : ∀ (l : List StoreOp) (s : Store), pendingInvariant s →
      pendingInvariant (l.foldl applyStoreOp s) := by
    intro l
    induction l with
    | nil => intro s hs; exact hs
    | cons op rest ih =>
      intro s hs
      exact ih (applyStoreOp s op) (pendingInvariant_step s op hs)
  exact hstep ops Store.new hnew

/-! ## C2: atomicity of UpdateFunc on mutator error -/

/-- C2: for every store, id and mutator, when the mutator returns an
error the store is returned completely unchanged and the error is
handed back to the caller; and the phase-C re-validation mutator of
ExecuteRetry returns a NotRetryable error exactly in the re-validation
cases, namely a status outside Scheduled/Retrying or an attempt count
that no longer matches the snapshot. -/
theorem updateFunc_mutator_error_atomic :
    (∀ (ε : Type) (s : Store) (id : String) (fn : Transaction → Except ε Transaction)
        (tx : Transaction) (e : ε),
      s.transactions id = some tx → fn (copyTransaction tx) = .error e →
      s.updateFunc id fn = (s, UpdateOutcome.mutatorError e)) ∧
    (∀ (attemptNum : Nat) (attempt : RetryAttempt) (success : Bool) (now : Int)
        (tx : Transaction),
      ((tx.status ≠ .scheduled ∧ tx.status ≠ .retrying) ∨
        tx.retryAttempts.length + 1 ≠ attemptNum) →
      executeRetryMutator attemptNum attempt success now tx =
        .error MutatorError.notRetryable) := by
  constructor
  · intro ε s id fn tx e htx hfn
    simp only [Store.updateFunc, htx, hfn]
  · intro attemptNum attempt success now tx h
    unfold executeRetryMutator
    rcases h with ⟨h1, h2⟩ | h
    · rw [if_pos (by tauto)]
    · by_cases hst : ¬(tx.status = .scheduled ∨ tx.status = .retrying)
      · rw [if_pos hst]
      · rw [if_neg hst, if_pos h]

/-- C2 witness: an erroring mutator leaves the concrete store intact
and its error is handed back, and the phase-C mutator rejects a
terminal transaction with NotRetryable. -/
theorem updateFunc_mutator_error_atomic_witness :
    c2Store.updateFunc "t1"
        (fun _ => (Except.error MutatorError.notRetryable : Except MutatorError Transaction)) =
      (c2Store, UpdateOutcome.mutatorError MutatorError.notRetryable) ∧
    executeRetryMutator 1 c2Attempt false 0 c2Transaction =
      Except.error MutatorError.notRetryable :=
  ⟨updateFunc_mutator_error_atomic.1 MutatorError c2Store "t1" _ c2Transaction
      MutatorError.notRetryable (by decide) rfl,
    updateFunc_mutator_error_atomic.2 1 c2Attempt false 0 c2Transaction
      (Or.inl (by decide))⟩

/-! ## C10: built-in hard decline codes cannot be overridden -/

/-- C10: for each of the four built-in hard decline codes,
ClassifyDecline answers Hard for every strategy table whatsoever --
including tables extended at runtime by ApplyStrategyOverrides, which
accepts any code name -- because the hard-code table is consulted
before the strategy table; consequently Submit always rejects these
codes with retry_eligible false, a Rejected stored record and no
retry plan. -/
theorem hardDeclineCodes_always_hard (strategies : String → Option RetryStrategy)
    (code : String)
    (hc : code = "stolen_card" ∨ code = "fraud_suspected" ∨ code = "invalid_card" ∨
      code = "expired_card") :
    (classifyDecline strategies code).1 = DeclineCategory.hard ∧
    ∀ (parseTime : String → Option Int) (now : Int) (s : EngState) (req : SubmitRequest),
      req.declineCode = code → s.store.transactions req.transactionID = none →
      ∃ (s1 : EngState) (resp : SubmitResponse),
        submit parseTime strategies now s req = some (s1, Except.ok resp) ∧
        resp.retryEligible = false ∧ resp.status = TransactionStatus.rejected ∧
        (s1.store.transactions req.transactionID).map Transaction.status =
          some TransactionStatus.rejected ∧
        (s1.store.transactions req.transactionID).map Transaction.retryPlan = some none ∧
        s1.events = s.events := by
  obtain ⟨r, hr⟩ : ∃ r, hardDeclineCodes.lookup code = some r := by
    rcases hc with rfl | rfl | rfl | rfl <;> exact ⟨_, rfl⟩
  have hcl : classifyDecline strategies code = (DeclineCategory.hard, r) := by
    unfold classifyDecline
    rw [hr]
  refine ⟨by rw [hcl], ?_⟩
  intro parseTime now s req hreq htx
  refine ⟨{ s with store := hardSubmitStore s.store req (parsedSubmitTime parseTime now req) now },
    { transactionID := req.transactionID, declineCategory := DeclineCategory.hard,
      status := TransactionStatus.rejected, retryEligible := false, retryPlan := none,
      message := "Hard decline: " ++ r ++ ". Transaction will not be retried." },
    ?_, rfl, rfl, ?_, ?_, rfl⟩
  · simp [submit, hreq, hcl, Store.saveIfNotExists, htx, copyTransaction,
      rejectedTransaction, hardSubmitStore]
  · simp [hardSubmitStore, updatePendingIndex_transactions, rejectedTransaction]
  · simp [hardSubmitStore, updatePendingIndex_transactions, rejectedTransaction]

/-- C10 witness: the table really contains a strategy entry for
stolen_card, yet classification stays Hard and Submit rejects. -/
theorem hardDeclineCodes_always_hard_witness :
    (c10Table "stolen_card").isSome = true ∧
    (classifyDecline c10Table "stolen_card").1 = DeclineCategory.hard ∧
    ∃ (s1 : EngState) (resp : SubmitResponse),
      submit (fun _ => none) c10Table 0 { store := Store.new, events := [] } c10Request =
        some (s1, Except.ok resp) ∧
      resp.retryEligible = false ∧ resp.status = TransactionStatus.rejected ∧
      (s1.store.transactions c10Request.transactionID).map Transaction.status =
        some TransactionStatus.rejected ∧
      (s1.store.transactions c10Request.transactionID).map Transaction.retryPlan =
        some none ∧
      s1.events = [] :=
  ⟨by decide,
    (hardDeclineCodes_always_hard c10Table "stolen_card" (Or.inl rfl)).1,
    (hardDeclineCodes_always_hard c10Table "stolen_card" (Or.inl rfl)).2
      (fun _ => none) 0 { store := Store.new, events := [] } c10Request rfl rfl⟩

/-! ## C3: Submit idempotency -/

theorem submit_duplicate (parseTime : String → Option Int)
    (strategies : String → Option RetryStrategy) (now : Int) (s : EngState)
    (req : SubmitRequest) (tx0 : Transaction)
    (htx : s.store.transactions req.transactionID = some tx0)
    (hbp : submitBuildsPlan strategies req now = true) :
    submit parseTime strategies now s req =
      some (s, Except.error SubmitError.alreadyExists) := by
  unfold submitBuildsPlan at hbp
  cases hcr : (classifyDecline strategies req.declineCode).1 with
  | hard =>
    simp [submit, hcr, Store.saveIfNotExists, htx]
  | soft =>
    rw [hcr] at hbp
    cases hplan : buildRetryPlan strategies req.declineCode req.originalProcessor now with
    | none =>
      rw [hplan] at hbp
      simp at hbp
    | some o =>
      cases o with
      | none =>
        rw [hplan] at hbp
        simp at hbp
      | some plan =>
        simp [submit, hcr, hplan, Store.saveIfNotExists, htx]

theorem submit_fresh (parseTime : String → Option Int)
    (strategies : String → Option RetryStrategy) (now : Int) (s : EngState)
    (req : SubmitRequest)
    (htx : s.store.transactions req.transactionID = none)
    (hbp : submitBuildsPlan strategies req now = true) :
    ∃ (s1 : EngState) (resp : SubmitResponse),
      submit parseTime strategies now s req = some (s1, Except.ok resp) ∧
      (s1.store.transactions req.transactionID).isSome = true := by
  unfold submitBuildsPlan at hbp
  cases hcr : (classifyDecline strategies req.declineCode).1 with
  | hard =>
    refine ⟨{ s with store := hardSubmitStore s.store req (parsedSubmitTime parseTime now req) now },
      { transactionID := req.transactionID, declineCategory := DeclineCategory.hard,
        status := TransactionStatus.rejected, retryEligible := false, retryPlan := none,
        message := "Hard decline: " ++ (classifyDecline strategies req.declineCode).2 ++
          ". Transaction will not be retried." },
      ?_, ?_⟩
    · simp [submit, hcr, Store.saveIfNotExists, htx, copyTransaction, rejectedTransaction,
        hardSubmitStore]
    · simp [hardSubmitStore, updatePendingIndex_transactions]
  | soft =>
    rw [hcr] at hbp
    cases hplan : buildRetryPlan strategies req.declineCode req.originalProcessor now with
    | none =>
      rw [hplan] at hbp
      simp at hbp
    | some o =>
      cases o with
      | none =>
        rw [hplan] at hbp
        simp at hbp
      | some plan =>
        refine ⟨sendEvent
            { s with store := softSubmitStore s.store req plan (parsedSubmitTime parseTime now req) now }
            (scheduledTransaction req plan (parsedSubmitTime parseTime now req) now)
            eventRetryScheduled 0 now,
          { transactionID := req.transactionID, declineCategory := DeclineCategory.soft,
            status := TransactionStatus.scheduled, retryEligible := true,
            retryPlan := some plan,
            message := "Soft decline: " ++ (classifyDecline strategies req.declineCode).2 ++
              ". Scheduled " ++ toString plan.maxAttempts ++ " retry attempts." },
          ?_, ?_⟩
        · simp [submit, hcr, hplan, Store.saveIfNotExists, htx, copyTransaction,
            scheduledTransaction, softSubmitStore, sendEvent]
        · simp [sendEvent, softSubmitStore, updatePendingIndex_transactions]

theorem runSubmits_duplicate (parseTime : String → Option Int)
    (strategies : String → Option RetryStrategy) (id : String) :
    ∀ (calls : List (Int × SubmitRequest)) (s : EngState),
      (∀ c ∈ calls, c.2.transactionID = id ∧ submitBuildsPlan strategies c.2 c.1 = true) →
      (s.store.transactions id).isSome = true →
      runSubmits parseTime strategies s calls =
        some (s, calls.map (fun _ => Except.error SubmitError.alreadyExists)) := by
  intro calls
  induction calls with
  | nil =>
    intro s _ _
    rfl
  | cons c rest ih =>
    intro s hall hsome
    obtain ⟨hid, hbp⟩ := hall c (by simp)
    rw [Option.isSome_iff_exists] at hsome
    obtain ⟨tx0, htx0⟩ := hsome
    have htx : s.store.transactions c.2.transactionID = some tx0 := by
      rw [hid]
      exact htx0
    simp only [runSubmits, submit_duplicate parseTime strategies c.1 s c.2 tx0 htx hbp,
      ih s (fun d hd => hall d (by simp [hd])) (by rw [htx0]; rfl)]
    rfl

/-- C3: in any sequence of Submit calls sharing one transaction id,
starting from a store without that id, the first call succeeds and
creates the stored record, and every later call returns the
already-exists error and changes nothing: the engine state after the
whole sequence is exactly the state after the first call (no record
overwritten, no plan replaced, no event emitted by the duplicates). -/
theorem submit_idempotent (parseTime : String → Option Int)
    (strategies : String → Option RetryStrategy) (id : String)
    (first : Int × SubmitRequest) (rest : List (Int × SubmitRequest)) (s0 : EngState)
    (hid : ∀ c ∈ first :: rest, c.2.transactionID = id)
    (h0 : s0.store.transactions id = none)
    (hbp : ∀ c ∈ first :: rest, submitBuildsPlan strategies c.2 c.1 = true) :
    ∃ (s1 : EngState) (resp : SubmitResponse),
      submit parseTime strategies first.1 s0 first.2 = some (s1, Except.ok resp) ∧
      (s1.store.transactions id).isSome = true ∧
      runSubmits parseTime strategies s0 (first :: rest) =
        some (s1, Except.ok resp :: rest.map (fun _ => Except.error SubmitError.alreadyExists)) := by
  have hfid : first.2.transactionID = id := hid first (by simp)
  obtain ⟨s1, resp, heq, hsome⟩ := submit_fresh parseTime strategies first.1 s0 first.2
    (by rw [hfid]; exact h0) (hbp first (by simp))
  have hsome1 : (s1.store.transactions id).isSome = true := by
    rw [← hfid]
    exact hsome
  refine ⟨s1, resp, heq, hsome1, ?_⟩
  simp only [runSubmits, heq,
    runSubmits_duplicate parseTime strategies id rest s1
      (fun c hc => ⟨hid c (by simp [hc]), hbp c (by simp [hc])⟩) hsome1]

/-- C3 witness: submitting the same insufficient_funds transaction
twice from an empty store creates it once; the duplicate returns the
already-exists error and leaves the state of the first call intact. -/
theorem submit_idempotent_witness :
    ∃ (s1 : EngState) (resp : SubmitResponse),
      submit (fun _ => none) defaultStrategies 0 { store := Store.new, events := [] }
          c3Request = some (s1, Except.ok resp) ∧
      (s1.store.transactions "t3").isSome = true ∧
      runSubmits (fun _ => none) defaultStrategies { store := Store.new, events := [] }
          ((0, c3Request) :: [(1, c3Request)]) =
        some (s1, Except.ok resp ::
          [(1, c3Request)].map (fun _ => Except.error SubmitError.alreadyExists)) :=
  submit_idempotent (fun _ => none) defaultStrategies "t3" (0, c3Request)
    [(1, c3Request)] { store := Store.new, events := [] } (by decide) rfl (by decide)

/-! ## C1: the ExecuteRetry commit -/

theorem updateFunc_ok {ε : Type} (s : Store) (id : String)
    (fn : Transaction → Except ε Transaction) (tx cp : Transaction)
    (htx : s.transactions id = some tx) (hfn : fn tx = Except.ok cp) :
    s.updateFunc id fn = (commitStore s id cp, UpdateOutcome.ok cp) := by
  simp only [Store.updateFunc, copyTransaction, htx, hfn, commitStore]

theorem executeRetryMutator_ok (tx : Transaction) (plan : RetryPlan) (att : RetryAttempt)
    (success : Bool) (now : Int)
    (hst : tx.status = TransactionStatus.scheduled ∨ tx.status = TransactionStatus.retrying)
    (hplan : tx.retryPlan = some plan)
    (hn : tx.retryAttempts.length + 1 ≤ plan.maxAttempts)
    (hlt : plan.scheduledTimes.length = plan.maxAttempts) :
    executeRetryMutator (tx.retryAttempts.length + 1) att success now tx =
      Except.ok (committedTransaction tx plan att success (tx.retryAttempts.length + 1) now) := by
  unfold executeRetryMutator committedTransaction
  rw [if_neg (not_not_intro hst), if_neg (by omega : ¬ tx.retryAttempts.length + 1 ≠ tx.retryAttempts.length + 1)]
  cases hsucc : success with
  | true => simp
  | false =>
    simp only [hplan]
    by_cases hm : tx.retryAttempts.length + 1 = plan.maxAttempts
    · rw [if_pos (by omega : plan.maxAttempts ≤ tx.retryAttempts.length + 1)]
      simp [hm]
    · rw [if_neg (by omega : ¬ plan.maxAttempts ≤ tx.retryAttempts.length + 1)]
      have hlt2 : tx.retryAttempts.length + 1 < plan.scheduledTimes.length := by omega
      simp only [List.get?_eq_get hlt2]
      simp [hm]

theorem eventTypeForStatus_committed (tx : Transaction) (plan : RetryPlan)
    (att : RetryAttempt) (success : Bool) (n : Nat) (now : Int) :
    eventTypeForStatus (committedTransaction tx plan att success n now).status =
      commitEventType success n plan.maxAttempts := by
  unfold committedTransaction commitEventType
  cases success with
  | true => simp [eventTypeForStatus]
  | false =>
    by_cases hm : n = plan.maxAttempts <;> simp [hm, eventTypeForStatus]

/-- C1: for a stored transaction in Scheduled or Retrying with a plan
of full length, ExecuteRetry at attempt n = len(retry_attempts)+1 <=
max_attempts commits exactly one appended attempt, transitions the
status per the table (success -> Recovered clearing next_retry_at;
failure at n = max -> FailedFinal clearing next_retry_at; failure
below max -> Retrying with next_retry_at = scheduled_times[n]),
touches no other record, and emits exactly one event keyed by the
final status after the commit. -/
theorem executeRetry_commit_spec (sim : String → Nat → String → SimResult) (now : Int)
    (s : EngState) (txID : String) (tx : Transaction) (plan : RetryPlan)
    (hget : s.store.transactions txID = some tx)
    (hst : tx.status = TransactionStatus.scheduled ∨ tx.status = TransactionStatus.retrying)
    (hplan : tx.retryPlan = some plan)
    (hn : tx.retryAttempts.length + 1 ≤ plan.maxAttempts)
    (hlp : plan.processors.length = plan.maxAttempts)
    (hlt : plan.scheduledTimes.length = plan.maxAttempts) :
    ∃ (processor : String) (scheduledAt : Int) (s1 : EngState),
      plan.processors.get? tx.retryAttempts.length = some processor ∧
      plan.scheduledTimes.get? tx.retryAttempts.length = some scheduledAt ∧
      executeRetry sim now s txID = some (s1, Except.ok ()) ∧
      s1.store.transactions txID = some (committedTransaction tx plan
        (commitAttempt (tx.retryAttempts.length + 1) processor scheduledAt now
          (sim tx.declineCode (tx.retryAttempts.length + 1) processor))
        (sim tx.declineCode (tx.retryAttempts.length + 1) processor).success
        (tx.retryAttempts.length + 1) now) ∧
      (∀ i, i ≠ txID → s1.store.transactions i = s.store.transactions i) ∧
      s1.events = s.events ++
        [{ eventType := commitEventType
              (sim tx.declineCode (tx.retryAttempts.length + 1) processor).success
              (tx.retryAttempts.length + 1) plan.maxAttempts,
           transactionID := tx.id, status := tx.status,
           attemptNumber := tx.retryAttempts.length + 1, timestamp := now }] := by
  have hpl : tx.retryAttempts.length < plan.processors.length := by omega
  have hsl : tx.retryAttempts.length < plan.scheduledTimes.length := by omega
  obtain ⟨processor, hgp⟩ : ∃ p, plan.processors.get? tx.retryAttempts.length = some p :=
    ⟨_, List.get?_eq_get hpl⟩
  obtain ⟨scheduledAt, hgs⟩ : ∃ q, plan.scheduledTimes.get? tx.retryAttempts.length = some q :=
    ⟨_, List.get?_eq_get hsl⟩
  have hmut := executeRetryMutator_ok tx plan
    (commitAttempt (tx.retryAttempts.length + 1) processor scheduledAt now
      (sim tx.declineCode (tx.retryAttempts.length + 1) processor))
    (sim tx.declineCode (tx.retryAttempts.length + 1) processor).success now hst hplan hn hlt
  refine ⟨processor, scheduledAt,
    { store := commitStore s.store txID (committedTransaction tx plan
        (commitAttempt (tx.retryAttempts.length + 1) processor scheduledAt now
          (sim tx.declineCode (tx.retryAttempts.length + 1) processor))
        (sim tx.declineCode (tx.retryAttempts.length + 1) processor).success
        (tx.retryAttempts.length + 1) now),
      events := s.events ++
        [{ eventType := commitEventType
              (sim tx.declineCode (tx.retryAttempts.length + 1) processor).success
              (tx.retryAttempts.length + 1) plan.maxAttempts,
           transactionID := tx.id, status := tx.status,
           attemptNumber := tx.retryAttempts.length + 1, timestamp := now }] },
    hgp, hgs, ?_, ?_, ?_, ?_⟩
  · simp only [executeRetry, hget, copyTransaction]
    rw [if_neg (not_not_intro hst)]
    simp only [hplan]
    rw [if_neg (by omega : ¬ plan.maxAttempts < tx.retryAttempts.length + 1)]
    simp only [Nat.add_sub_cancel, hgp, hgs]
    simp only [commitAttempt] at hmut
    simp only [updateFunc_ok s.store txID _ tx _ hget hmut]
    simp only [sendEvent, eventTypeForStatus_committed]
    simp only [commitAttempt]
  · simp [commitStore, updatePendingIndex_transactions]
  · intro i hi
    simp [commitStore, updatePendingIndex_transactions, if_neg hi]
  · rfl

/-- C1 witness: executing the single due attempt of the concrete
scheduled transaction commits one attempt and emits one event. -/
theorem executeRetry_commit_spec_witness :
    ∃ (processor : String) (scheduledAt : Int) (s1 : EngState),
      c1Plan.processors.get? c1Transaction.retryAttempts.length = some processor ∧
      c1Plan.scheduledTimes.get? c1Transaction.retryAttempts.length = some scheduledAt ∧
      executeRetry c1Sim 7 c1State "t1" = some (s1, Except.ok ()) ∧
      s1.store.transactions "t1" = some (committedTransaction c1Transaction c1Plan
        (commitAttempt (c1Transaction.retryAttempts.length + 1) processor scheduledAt 7
          (c1Sim c1Transaction.declineCode (c1Transaction.retryAttempts.length + 1) processor))
        (c1Sim c1Transaction.declineCode (c1Transaction.retryAttempts.length + 1) processor).success
        (c1Transaction.retryAttempts.length + 1) 7) ∧
      (∀ i, i ≠ "t1" → s1.store.transactions i = c1State.store.transactions i) ∧
      s1.events = c1State.events ++
        [{ eventType := commitEventType
              (c1Sim c1Transaction.declineCode (c1Transaction.retryAttempts.length + 1) processor).success
              (c1Transaction.retryAttempts.length + 1) c1Plan.maxAttempts,
           transactionID := c1Transaction.id, status := c1Transaction.status,
           attemptNumber := c1Transaction.retryAttempts.length + 1, timestamp := 7 }] :=
  executeRetry_commit_spec c1Sim 7 c1State "t1" c1Transaction c1Plan (by decide)
    (Or.inl rfl) rfl (by decide) (by decide) (by decide)

/-! ## C9: strategy-override application -/

theorem mapM_option_isSome {α β : Type} (f : α → Option β) :
    ∀ l : List α, (l.mapM f).isSome = l.all (fun a => (f a).isSome) := by
  intro l
  induction l with
  | nil => rfl
  | cons a l ih =>
    rw [List.mapM_cons, List.all_cons, ← ih]
    cases ha : f a with
    | none => simp
    | some b =>
      cases hl : l.mapM f with
      | none => simp [Option.bind]
      | some bs => simp [Option.bind]

theorem applyOne_valid (parseDuration : String → Option Int)
    (table : String → Option RetryStrategy) (code : String) (cfg : StrategyConfig)
    (h : entryValid parseDuration code cfg = true) :
    ∃ table1, applyOne parseDuration table code cfg = .ok table1 := by
  unfold entryValid at h
  simp only [Bool.and_eq_true] at h
  obtain ⟨⟨hv, hd⟩, hb⟩ := h
  cases hval : validateStrategyConfig code cfg with
  | error e =>
    rw [hval] at hv
    simp [Except.isOk, Except.toBool] at hv
  | ok u =>
    have hdel : ∀ (strat : RetryStrategy) (er : ConfigError),
        delaysUpdate parseDuration code cfg strat ≠ Except.error er := by
      intro strat er hcontra
      unfold delaysUpdate at hcontra
      by_cases hlen : 0 < cfg.delays.length
      · have hsome : (cfg.delays.mapM parseDuration).isSome = true := by
          rw [mapM_option_isSome]
          exact hd
        rw [Option.isSome_iff_exists] at hsome
        obtain ⟨ds, hds⟩ := hsome
        rw [if_pos hlen, hds] at hcontra
        simp at hcontra
      · rw [if_neg hlen] at hcontra
        simp at hcontra
    have hbase : ∀ (strat : RetryStrategy) (er : ConfigError),
        baseDelayUpdate parseDuration code cfg strat ≠ Except.error er := by
      intro strat er hcontra
      unfold baseDelayUpdate at hcontra
      by_cases hne : cfg.baseDelay ≠ ""
      · rw [Bool.or_eq_true] at hb
        rcases hb with hb1 | hb2
        · rw [decide_eq_true_iff] at hb1
          exact absurd hb1 hne
        · rw [Option.isSome_iff_exists] at hb2
          obtain ⟨d, hd2⟩ := hb2
          rw [if_pos hne, hd2] at hcontra
          simp at hcontra
      · rw [if_neg hne] at hcontra
        simp at hcontra
    simp only [applyOne, hval]
    split
    · next er heq => exact absurd heq (hdel _ er)
    · next e2 heq2 =>
      split
      · next er heq => exact absurd heq (hbase _ er)
      · next e7 heq7 => exact ⟨_, rfl⟩

theorem applyOne_invalid (parseDuration : String → Option Int)
    (table : String → Option RetryStrategy) (code : String) (cfg : StrategyConfig)
    (h : entryValid parseDuration code cfg = false) :
    ∃ e, applyOne parseDuration table code cfg = .error e := by
  cases hval : validateStrategyConfig code cfg with
  | error e =>
    refine ⟨e, ?_⟩
    simp only [applyOne, hval]
  | ok u =>
    simp only [applyOne, hval]
    split
    · next er heq => exact ⟨er, rfl⟩
    · next e2 heq2 =>
      split
      · next er heq => exact ⟨er, rfl⟩
      · next e7 heq7 =>
        exfalso
        unfold entryValid at h
        rw [hval] at h
        by_cases hd : cfg.delays.all (fun d => (parseDuration d).isSome) = true
        · by_cases hbase : (decide (cfg.baseDelay = "") ||
              (parseDuration cfg.baseDelay).isSome) = true
          · rw [hd, hbase] at h
            simp [Except.isOk, Except.toBool] at h
          · have hbase2 : (decide (cfg.baseDelay = "") ||
                (parseDuration cfg.baseDelay).isSome) = false := by
              simpa using hbase
            simp only [Bool.or_eq_false_iff, decide_eq_false_iff_not] at hbase2
            obtain ⟨hne, hparse⟩ := hbase2
            have hnone : parseDuration cfg.baseDelay = none := by
              cases hp : parseDuration cfg.baseDelay with
              | none => rfl
              | some d =>
                rw [hp] at hparse
                simp at hparse
            unfold baseDelayUpdate at heq7
            rw [if_pos hne, hnone] at heq7
            simp at heq7
        · have hdf : cfg.delays.all (fun d => (parseDuration d).isSome) = false := by
            simpa using hd
          have hlen : 0 < cfg.delays.length := by
            cases hdl : cfg.delays with
            | nil =>
              rw [hdl] at hdf
              simp at hdf
            | cons a l => simp [hdl]
          have hnone : cfg.delays.mapM parseDuration = none := by
            have hsome : (cfg.delays.mapM parseDuration).isSome = false := by
              rw [mapM_option_isSome]
              exact hdf
            cases hmm : cfg.delays.mapM parseDuration with
            | none => rfl
            | some ds =>
              rw [hmm] at hsome
              simp at hsome
          unfold delaysUpdate at heq2
          rw [if_pos hlen, hnone] at heq2
          simp at heq2

/-- C9 amended: applying overrides returns an error exactly when some
entry in iteration order is invalid (fails validation or has an
unparseable duration string), and the resulting table is the one
obtained by applying exactly the entries before the first invalid one:
each entry is written all-or-nothing, but earlier valid overrides
remain applied when a later entry fails, so the defaults are retained
only when the failing entry comes first. -/
theorem applyStrategyOverrides_spec :
    ∀ (parseDuration : String → Option Int) (table : String → Option RetryStrategy)
      (overrides : List (String × StrategyConfig)),
      ((applyStrategyOverrides parseDuration table overrides).2.isSome =
        overrides.any (fun e => !(entryValid parseDuration e.1 e.2))) ∧
      (applyStrategyOverrides parseDuration table overrides).1 =
        (applyStrategyOverrides parseDuration table
          (overrides.takeWhile (fun e => entryValid parseDuration e.1 e.2))).1 := by
  intro parseDuration table overrides
  induction overrides generalizing table with
  | nil => simp [applyStrategyOverrides]
  | cons c rest ih =>
    by_cases hv : entryValid parseDuration c.1 c.2 = true
    · obtain ⟨t2, ht2⟩ := applyOne_valid parseDuration table c.1 c.2 hv
      constructor
      · simp only [applyStrategyOverrides, ht2, List.any_cons, hv, Bool.not_true,
          Bool.false_or]
        exact (ih t2).1
      · simp only [applyStrategyOverrides, ht2, List.takeWhile_cons, hv, if_true]
        exact (ih t2).2
    · have hv2 : entryValid parseDuration c.1 c.2 = false := by
        simpa using hv
      obtain ⟨e, he⟩ := applyOne_invalid parseDuration table c.1 c.2 hv2
      constructor
      · simp [applyStrategyOverrides, he, List.any_cons, hv2]
      · simp [applyStrategyOverrides, he, List.takeWhile_cons, hv2]

/-- C9 counterexample: this override list makes ApplyStrategyOverrides
return an error, yet the runtime table does not retain the defaults:
the earlier valid override for insufficient_funds is already applied
(its max_attempts is now 5, not the default 3). -/
theorem applyStrategyOverrides_counterexample :
    ((applyStrategyOverrides (fun _ => none) defaultStrategies cexOverrides).2.isSome = true) ∧
    ((applyStrategyOverrides (fun _ => none) defaultStrategies cexOverrides).1
        "insufficient_funds").map RetryStrategy.maxAttempts = some 5 ∧
    (defaultStrategies "insufficient_funds").map RetryStrategy.maxAttempts = some 3 ∧
    (applyStrategyOverrides (fun _ => none) defaultStrategies cexOverrides).1
        "insufficient_funds" ≠ defaultStrategies "insufficient_funds" := by
  refine ⟨by decide, by decide, by decide, by decide⟩

end ZenithPay
